import Mathlib

/-!
Verification of the thread-boundary detection algorithm, the summarizer
adapter, the draft-repository operations and the job orchestrator of the
iMessage-blog application, embedded shallowly from the TypeScript source
(`src/services/iMessageSyncService.ts`, `src/services/aiSummaryService.ts`,
`src/services/blogPostService.ts`, `src/services/scheduledTaskService.ts`).

Database rows are modelled as explicit lists, wall-clock timestamps as `Int`
(JavaScript millisecond epoch values), and external effects (the iMessage
sync, the Prisma queries that can throw, the Anthropic API call) as oracle
parameters returning `Except`/outcome values, so every function below is a
total Lean function mirroring the control flow of the source.
-/

/-! ### Data model -/

/-- A row of the `Message` table as seen by `detectThreadBoundaries`:
surrogate key `id`, `chatId`, `senderId`, and the origination timestamp
`sentAt` (ms since epoch). -/
structure Msg where
  id : Nat
  chatId : String
  senderId : String
  sentAt : Int
deriving DecidableEq, Repr

/-- The `MessageThread` value built by `detectThreadBoundaries`
(`src/types/imessage.ts`). -/
structure MessageThread where
  chatId : String
  messageIds : List Nat
  startTime : Int
  endTime : Int
  messageCount : Nat
  participants : List String
deriving DecidableEq, Repr

/-! ### Thread detector (`iMessageSyncService.detectThreadBoundaries`) -/

/-- The fresh accumulator seeded from one message (the
`currentThread = { chatId: message.chatId, messageIds: [message.id], ... }`
branches of the source). -/
def newThread (m : Msg) : MessageThread :=
  { chatId := m.chatId
    messageIds := [m.id]
    startTime := m.sentAt
    endTime := m.sentAt
    messageCount := 1
    participants := [m.senderId] }

/-- Extending the open accumulator with a message (the
"Add to current thread" branch of the source: push the id, move the end
timestamp, bump the count, add the sender if unseen). -/
def extendThread (t : MessageThread) (m : Msg) : MessageThread :=
  { t with
    messageIds := t.messageIds ++ [m.id]
    endTime := m.sentAt
    messageCount := t.messageCount + 1
    participants :=
      if m.senderId ∈ t.participants then t.participants
      else t.participants ++ [m.senderId] }

/-- The single-pass scan of `detectThreadBoundaries`: `threads` is the list
built so far, the `Option MessageThread` is the `currentThread` variable
(`none` = no open accumulator). The guard is the source's
`message.chatId === currentThread.chatId &&
 message.sentAt.getTime() - currentThread.endTime.getTime() < gapMs`. -/
def detectLoop (gapMs : Int) :
    List Msg → List MessageThread → Option MessageThread → List MessageThread
  | [], threads, none => threads
  | [], threads, some t => threads ++ [t]
  | m :: rest, threads, none =>
      detectLoop gapMs rest threads (some (newThread m))
  | m :: rest, threads, some t =>
      if m.chatId = t.chatId ∧ m.sentAt - t.endTime < gapMs then
        detectLoop gapMs rest threads (some (extendThread t m))
      else
        detectLoop gapMs rest (threads ++ [t]) (some (newThread m))

/-- `detectThreadBoundaries(timeGapHours)` on the list of unclaimed messages
the Prisma query returns (sorted ascending by `sentAt`). `gapMs` is
`timeGapHours * 60 * 60 * 1000`; the final `.reverse()` returns threads
newest first, exactly as the source does. -/
def detectThreadBoundaries (timeGapHours : Int) (messages : List Msg) :
    List MessageThread :=
  (detectLoop (timeGapHours * 60 * 60 * 1000) messages [] none).reverse

/-- Member ids held by the open accumulator. -/
def curIds : Option MessageThread → List Nat
  | none => []
  | some t => t.messageIds

/-! ### Summarizer adapter (`aiSummaryService.generateBlogPost`) -/

/-- A message as passed to the summarizer (`MessageForSummary` in
`src/types/blog.ts`): sender display name, origination timestamp, text. -/
structure MessageForSummary where
  senderName : String
  sentAt : Int
  text : String
deriving DecidableEq, Repr

/-- The `BlogPostContent` value (`src/types/blog.ts`); the optional
`fallback?: boolean` field is modelled as a `Bool` that is `false` (absent)
on the AI-authored path. -/
structure BlogPostContent where
  title : String
  content : String
  fallback : Bool := false
deriving DecidableEq, Repr

/-- Outcome of the external Anthropic call as observed by
`generateBlogPost`'s `try` block: the client constructor throws for a
missing `ANTHROPIC_API_KEY`, the network call throws, the first content
block is not of type `text`, or a text body is returned. -/
inductive ApiOutcome where
  | missingKey
  | networkError
  | nonTextResponse
  | textResponse (body : String)
deriving DecidableEq, Repr

/-- The markdown-fence stripping of `generateBlogPost`: trim, and when the
text starts with a fence, drop a leading fence line (regex
`^\x60\x60\x60(?:json)?\n?`) and a trailing fence (regex `\n?\x60\x60\x60$`). -/
def stripFences (s : String) : String :=
  let t := s.trim
  if t.startsWith "```" then
    let t1 :=
      if t.startsWith "```json\n" then t.drop 8
      else if t.startsWith "```json" then t.drop 7
      else if t.startsWith "```\n" then t.drop 4
      else t.drop 3
    if t1.endsWith "\n```" then t1.dropRight 4
    else if t1.endsWith "```" then t1.dropRight 3
    else t1
  else t

/-- `generateFallbackPost(messages)`: title from the first message's date,
content a `**sender** (time): text` transcript joined by blank lines under a
fixed heading, `fallback` set `true`. `fmtDate`/`fmtTime` stand for
JavaScript's locale-dependent `toLocaleDateString`/`toLocaleTimeString`; an
empty message list renders the JS `undefined` interpolation. -/
def generateFallbackPost (fmtDate fmtTime : Int → String)
    (messages : List MessageForSummary) : BlogPostContent :=
  let transcript :=
    String.intercalate "\n\n"
      (messages.map fun m =>
        "**" ++ m.senderName ++ "** (" ++ fmtTime m.sentAt ++ "): " ++ m.text)
  { title :=
      "Conversation from " ++
        (match messages.head? with
         | some m => fmtDate m.sentAt
         | none => "undefined")
    content := "# Conversation Transcript\n\n" ++ transcript
    fallback := true }

/-- `generateBlogPost(messages)`: every failure mode of the `try` block —
missing credential, network error, non-text first content block, or a body
whose fence-stripped text fails JSON parsing — lands in the fallback;
a parsed body yields `{title, content}` with no fallback flag. `parse`
stands for `JSON.parse` followed by reading the `title`/`content` fields
(`none` = the parse threw). -/
def generateBlogPost (parse : String → Option (String × String))
    (fmtDate fmtTime : Int → String) (outcome : ApiOutcome)
    (messages : List MessageForSummary) : BlogPostContent :=
  match outcome with
  | .missingKey => generateFallbackPost fmtDate fmtTime messages
  | .networkError => generateFallbackPost fmtDate fmtTime messages
  | .nonTextResponse => generateFallbackPost fmtDate fmtTime messages
  | .textResponse body =>
      match parse (stripFences body) with
      | some (t, c) => { title := t, content := c, fallback := false }
      | none => generateFallbackPost fmtDate fmtTime messages

/-! ### Draft repository (`blogPostService`) -/

/-- Post lifecycle status (`PostStatus` enum: DRAFT, PUBLISHED, ARCHIVED). -/
inductive PostStatus where
  | draft
  | published
  | archived
deriving DecidableEq, Repr

/-- One `BlogPost` row, restricted to the fields the lifecycle operations
read or write: `status` and `publishedAt` (plus the editable
title/content). -/
structure PostRow where
  title : String
  content : String
  status : PostStatus
  publishedAt : Option Int := none
deriving DecidableEq, Repr

/-- The row inserted by `createDraftPost`: status DRAFT, no `publishedAt`. -/
def newDraftRow (title content : String) : PostRow :=
  { title := title, content := content, status := .draft }

/-- `updatePost(id, updates)`: only DRAFT posts may be edited; on success
only `title`/`content` change. -/
def updatePost (p : PostRow) (newTitle newContent : Option String) :
    Except String PostRow :=
  if p.status ≠ PostStatus.draft then .error "Can only edit draft posts"
  else .ok { p with
    title := newTitle.getD p.title
    content := newContent.getD p.content }

/-- `publishPost(id)`: only DRAFT posts may be published; on success sets
status PUBLISHED and stamps `publishedAt = now`. -/
def publishPost (now : Int) (p : PostRow) : Except String PostRow :=
  if p.status ≠ PostStatus.draft then .error "Can only publish draft posts"
  else .ok { p with status := .published, publishedAt := some now }

/-- `deletePost(id)`: PUBLISHED posts cannot be deleted; otherwise the row
is removed (no surviving row, so nothing to state about its fields). -/
def deletePost (p : PostRow) : Except String Unit :=
  if p.status = PostStatus.published then
    .error "Cannot delete published posts. Archive them instead."
  else .ok ()

/-- `archivePost(id)`: unconditional update to status ARCHIVED; the source
touches no other field — in particular `publishedAt` is left as it was. -/
def archivePost (p : PostRow) : PostRow :=
  { p with status := .archived }

/-- The post states reachable through the service: created as a draft by
`createDraftPost`, then edited, published, or archived. -/
inductive ReachablePost : PostRow → Prop where
  | created : ∀ t c, ReachablePost (newDraftRow t c)
  | updated : ∀ p t c q, ReachablePost p → updatePost p t c = .ok q →
      ReachablePost q
  | publishedStep : ∀ now p q, ReachablePost p → publishPost now p = .ok q →
      ReachablePost q
  | archivedStep : ∀ p, ReachablePost p → ReachablePost (archivePost p)

/-- The tables touched by `createDraftPost`: inserted post ids, the
`PostMessage` linking rows `(postId, messageId)`, and the set of message ids
whose `processedForPost` flag is true. -/
structure Db where
  posts : List Nat
  links : List (Nat × Nat)
  claimed : List Nat
deriving DecidableEq, Repr

/-- `createDraftPost(threadData, aiContent)` as the source executes it: one
`prisma.blogPost.create` that inserts the Post row together with its nested
linking rows (a single atomic Prisma query), followed by a **separate**
`prisma.message.updateMany` that sets `processedForPost = true` — the two
calls are not wrapped in a transaction. `failPostInsert` / `failClaimUpdate`
inject a throw in the respective call; the returned `Db` is the state the
database is left in (persisted even when the call chain throws). -/
def createDraftPost (failPostInsert failClaimUpdate : Bool) (postId : Nat)
    (messageIds : List Nat) (db : Db) : Except String Unit × Db :=
  if failPostInsert then (.error "post insert failed", db)
  else
    let afterInsert : Db :=
      { db with
        posts := db.posts ++ [postId]
        links := db.links ++ messageIds.map fun mid => (postId, mid) }
    if failClaimUpdate then (.error "updateMany failed", afterInsert)
    else (.ok (), { afterInsert with claimed := afterInsert.claimed ++ messageIds })

/-! ### Job orchestrator (`scheduledTaskService.runGenerationJob`) -/

/-- The `JobResult` value object (the wall-clock `timestamp: new Date()`
field is not modelled; no claim concerns it). -/
structure JobResult where
  threadsProcessed : Nat
  draftsCreated : Nat
  errors : List String
deriving DecidableEq, Repr

/-- The environment one `runGenerationJob` invocation observes:
`syncOutcome` is `iMessageSyncService.syncNewMessages()` (a thrown error, or
the `SyncResult.errors` list), `detectOutcome` is the Prisma read inside
`detectThreadBoundaries` (a thrown error, or the unclaimed messages sorted
ascending by `sentAt`), `gapHours`/`maxThreads` are the parsed
`THREAD_GAP_HOURS` / `MAX_THREADS_PER_RUN` configuration, and
`threadOutcome i` is the combined load/summarize/`createDraftPost` effect
for the `i`-th retained thread (a thrown error message, or success). -/
structure OrchEnv where
  syncOutcome : Except String (List String)
  detectOutcome : Except String (List Msg)
  gapHours : Int
  maxThreads : Nat
  threadOutcome : Nat → Except String Unit

/-- The per-thread loop of `runGenerationJob`: on success both counters are
incremented and the thread's messages become claimed; on a caught error the
formatted string `"Thread processing failed: " + message` is appended and
the loop continues with the next thread. `i` is the index into the retained
thread list, `claimed` the ids with `processedForPost = true`. -/
def runLoop (outcome : Nat → Except String Unit) :
    List MessageThread → Nat → JobResult → List Nat → JobResult × List Nat
  | [], _, res, claimed => (res, claimed)
  | t :: rest, i, res, claimed =>
      match outcome i with
      | .ok _ =>
          runLoop outcome rest (i + 1)
            { res with
              threadsProcessed := res.threadsProcessed + 1
              draftsCreated := res.draftsCreated + 1 }
            (claimed ++ t.messageIds)
      | .error _ =>
          runLoop outcome rest (i + 1)
            { res with
              errors := res.errors ++
                ["Thread processing failed: " ++
                  (match outcome i with | .ok _ => "" | .error e => e)] }
            claimed

/-- Number of successful per-thread outcomes among indices `i, …, i+n-1`. -/
def okCount (outcome : Nat → Except String Unit) (i : Nat) : Nat → Nat
  | 0 => 0
  | n + 1 =>
      (match outcome i with | .ok _ => 1 | .error _ => 0) +
        okCount outcome (i + 1) n

/-- The formatted error strings the loop appends for indices
`i, …, i+n-1`, in order. -/
def loopErrors (outcome : Nat → Except String Unit) (i : Nat) :
    Nat → List String
  | 0 => []
  | n + 1 =>
      (match outcome i with
       | .ok _ => []
       | .error e => ["Thread processing failed: " ++ e]) ++
        loopErrors outcome (i + 1) n

/-- The message ids the loop claims: the member ids of exactly the
successfully processed threads. -/
def loopClaims (outcome : Nat → Except String Unit) :
    List MessageThread → Nat → List Nat
  | [], _ => []
  | t :: rest, i =>
      (match outcome i with | .ok _ => t.messageIds | .error _ => []) ++
        loopClaims outcome rest (i + 1)

/-- `runGenerationJob()`, one invocation, given the orchestrator's
`isRunning` flag and the currently claimed message ids; returns the
`JobResult`, the flag on exit, and the claimed ids on exit. Mirrors the
source exactly: the single-flight guard returns zero counts and the single
error `"Job already running"` without touching any state; otherwise sync
errors are appended, a sync or detection throw is caught at top level as
`"Job failed: " + message`, the detected threads are truncated to
`maxThreads` and processed by `runLoop`, and the `finally` block leaves the
flag `false` on every non-guarded exit path. -/
def runGenerationJob (env : OrchEnv) (isRunning : Bool) (claimed : List Nat) :
    JobResult × Bool × List Nat :=
  if isRunning then
    ({ threadsProcessed := 0, draftsCreated := 0
       errors := ["Job already running"] }, isRunning, claimed)
  else
    match env.syncOutcome with
    | .error e =>
        ({ threadsProcessed := 0, draftsCreated := 0
           errors := ["Job failed: " ++ e] }, false, claimed)
    | .ok syncErrors =>
        match env.detectOutcome with
        | .error e =>
            ({ threadsProcessed := 0, draftsCreated := 0
               errors := syncErrors ++ ["Job failed: " ++ e] }, false, claimed)
        | .ok msgs =>
            let threads := detectThreadBoundaries env.gapHours msgs
            let out := runLoop env.threadOutcome (threads.take env.maxThreads)
              0 { threadsProcessed := 0, draftsCreated := 0
                  errors := syncErrors } claimed
            (out.1, false, out.2)

/-- A concrete environment: two same-conversation messages exactly one gap
threshold apart, so the detector returns two threads, with a cap of one
thread per run and every per-thread step succeeding. -/
def envTwoThreadsCapOne : OrchEnv :=
  { syncOutcome := .ok []
    detectOutcome := .ok [⟨1, "A", "alice", 0⟩, ⟨2, "A", "alice", 7200000⟩]
    gapHours := 2
    maxThreads := 1
    threadOutcome := fun _ => .ok () }

/-- A concrete environment: one message (hence one detected thread) whose
processing throws `"boom"`. -/
def envOneThreadFails : OrchEnv :=
  { syncOutcome := .ok []
    detectOutcome := .ok [⟨1, "A", "alice", 0⟩]
    gapHours := 2
    maxThreads := 10
    threadOutcome := fun _ => .error "boom" }

/-! ### Theorems -/

lemma detectLoop_join (gapMs : Int) :
    ∀ (msgs : List Msg) (acc : List MessageThread) (cur : Option MessageThread),
      ((detectLoop gapMs msgs acc cur).map (·.messageIds)).flatten =
        ((acc.map (·.messageIds)).flatten ++ curIds cur) ++ msgs.map (·.id) := by
  intro msgs
  induction msgs with
  | nil =>
      intro acc cur
      cases cur with
      | none => simp [detectLoop, curIds]
      | some t => simp [detectLoop, curIds]
  | cons m rest ih =>
      intro acc cur
      cases cur with
      | none =>
          simp only [detectLoop, ih, curIds, newThread, List.map_cons]
          simp
      | some t =>
          by_cases h : m.chatId = t.chatId ∧ m.sentAt - t.endTime < gapMs
          · simp only [detectLoop, if_pos h, ih, curIds, extendThread, List.map_cons]
            simp [List.append_assoc]
          · simp only [detectLoop, if_neg h, ih, curIds, newThread, List.map_cons]
            simp [List.append_assoc]

/-- Concatenating the unreversed threads' member-id lists reproduces the
input id list exactly. -/
lemma detectLoop_join_eq (gapMs : Int) (msgs : List Msg) :
    ((detectLoop gapMs msgs [] none).map (·.messageIds)).flatten =
      msgs.map (·.id) := by
  simpa [curIds] using detectLoop_join gapMs msgs [] none

lemma flatten_reverse_perm {α : Type} :
    ∀ (L : List (List α)), L.reverse.flatten.Perm L.flatten := by
  intro L
  induction L with
  | nil => simp
  | cons l L ih =>
      have h1 : (l :: L).reverse.flatten = L.reverse.flatten ++ l := by
        simp
      rw [h1, List.flatten_cons]
      exact List.perm_append_comm.trans (ih.append_left l)

/-- C1: for every input message list and every gap threshold, the threads
returned by `detectThreadBoundaries` form a strict partition of the input:
the concatenation of all threads' member-id lists is a permutation of the
input id list (so every input id appears in exactly one thread, exactly
once), and each thread's member list is a sublist of the input id list in
input order — for an input sorted ascending by timestamp this is exactly
preservation of ascending-timestamp order inside each thread. -/
theorem detectThreadBoundaries_partition (gap : Int) (msgs : List Msg) :
    (((detectThreadBoundaries gap msgs).map (·.messageIds)).flatten).Perm
        (msgs.map (·.id)) ∧
    ∀ t ∈ detectThreadBoundaries gap msgs,
      t.messageIds.Sublist (msgs.map (·.id)) := by
  have hjoin := detectLoop_join_eq (gap * 60 * 60 * 1000) msgs
  constructor
  · have hrev :
        (detectThreadBoundaries gap msgs).map (·.messageIds) =
          ((detectLoop (gap * 60 * 60 * 1000) msgs [] none).map
            (·.messageIds)).reverse := by
      simp [detectThreadBoundaries]
    rw [hrev]
    exact (flatten_reverse_perm _).trans (hjoin ▸ List.Perm.refl _)
  · intro t ht
    have ht' : t ∈ detectLoop (gap * 60 * 60 * 1000) msgs [] none := by
      simpa [detectThreadBoundaries] using ht
    have hmem :
        t.messageIds ∈
          (detectLoop (gap * 60 * 60 * 1000) msgs [] none).map
            (·.messageIds) :=
      List.mem_map_of_mem _ ht'
    have hsub := List.sublist_flatten_of_mem hmem
    rwa [hjoin] at hsub

/-- C4: on a two-message input, `detectThreadBoundaries` keeps the second
message in the first message's thread precisely when the conversation ids
match AND the timestamp delta is strictly below `gapHours * 60 * 60 * 1000`.
Consequences covered by the equation: a delta exactly equal to the threshold
falls in the `else` branch (strict `<`), a delta strictly below it keeps both
messages in one thread, and a differing conversation id always splits even
with a zero delta; the split result also exhibits the final reversal (newest
thread first). -/
theorem detectThreadBoundaries_gap_boundary (g : Int) (m1 m2 : Msg) :
    (detectThreadBoundaries g [m1, m2]).map (·.messageIds) =
      if m2.chatId = m1.chatId ∧ m2.sentAt - m1.sentAt < g * 60 * 60 * 1000
      then [[m1.id, m2.id]]
      else [[m2.id], [m1.id]] := by
  by_cases h : m2.chatId = m1.chatId ∧ m2.sentAt - m1.sentAt < g * 60 * 60 * 1000
  · simp [detectThreadBoundaries, detectLoop, newThread, extendThread, h]
  · simp [detectThreadBoundaries, detectLoop, newThread, extendThread, h]

/-- C5: `generateBlogPost` is a total function (the embedding of "never
throws to its caller"), and on every failure outcome — missing API
credential, network error, non-text response, or a payload whose
fence-stripped text fails JSON parsing — it returns exactly the
deterministic fallback: `fallback = true`, title
`"Conversation from " + <date of first message>`, and content containing
every input message formatted as `**sender** (time): text` joined by blank
lines. -/
theorem generateBlogPost_fallback (parse : String → Option (String × String))
    (fmtDate fmtTime : Int → String) (outcome : ApiOutcome)
    (messages : List MessageForSummary)
    (hfail : ∀ body, outcome = .textResponse body →
      parse (stripFences body) = none) :
    generateBlogPost parse fmtDate fmtTime outcome messages =
        generateFallbackPost fmtDate fmtTime messages ∧
    (generateBlogPost parse fmtDate fmtTime outcome messages).fallback = true ∧
    (generateBlogPost parse fmtDate fmtTime outcome messages).title =
      "Conversation from " ++
        (match messages.head? with
         | some m => fmtDate m.sentAt
         | none => "undefined") ∧
    (generateBlogPost parse fmtDate fmtTime outcome messages).content =
      "# Conversation Transcript\n\n" ++
        String.intercalate "\n\n"
          (messages.map fun m =>
            "**" ++ m.senderName ++ "** (" ++ fmtTime m.sentAt ++ "): " ++
              m.text) := by
  have heq : generateBlogPost parse fmtDate fmtTime outcome messages =
      generateFallbackPost fmtDate fmtTime messages := by
    cases outcome with
    | missingKey => rfl
    | networkError => rfl
    | nonTextResponse => rfl
    | textResponse body =>
        simp [generateBlogPost, hfail body rfl]
  refine ⟨heq, ?_, ?_, ?_⟩ <;> rw [heq] <;> rfl

/-- Witness for C5 at a concrete failing outcome: a non-JSON payload with
one input message. -/
theorem generateBlogPost_fallback_witness :
    generateBlogPost (fun _ => none) (fun _ => "12/25/2024")
        (fun _ => "10:00:00 AM") (.textResponse "not json")
        [⟨"Alice", 0, "hi"⟩] =
      { title := "Conversation from 12/25/2024"
        content := "# Conversation Transcript\n\n**Alice** (10:00:00 AM): hi"
        fallback := true } := by
  have h := generateBlogPost_fallback (fun _ => none) (fun _ => "12/25/2024")
    (fun _ => "10:00:00 AM") (.textResponse "not json") [⟨"Alice", 0, "hi"⟩]
    (fun _ _ => rfl)
  rw [h.1]
  rfl

/-- Counterexample to C7: publish a fresh draft (reachable), then archive
it. The archived row still carries `publishedAt` while its status is not
"published", so the claimed iff-invariant fails after `archivePost`. -/
theorem publishedAt_iff_published_counterexample :
    publishPost 5 (newDraftRow "t" "c") =
      .ok { title := "t", content := "c", status := .published
            publishedAt := some 5 } ∧
    archivePost { title := "t", content := "c", status := .published
                  publishedAt := some 5 } =
      { title := "t", content := "c", status := .archived
        publishedAt := some 5 } ∧
    ¬ ((({ title := "t", content := "c", status := .archived
           publishedAt := some 5 } : PostRow).publishedAt.isSome = true) ↔
        ({ title := "t", content := "c", status := .archived
           publishedAt := some 5 } : PostRow).status = .published) := by
  refine ⟨rfl, rfl, ?_⟩
  decide

/-- C7 as amended: for every reachable post, status "published" implies
`publishedAt` is set (and `publishPost` is the only operation that sets it,
doing both together), while `publishedAt` being set implies status is
"published" **or** "archived" — `archivePost` preserves `publishedAt`, so a
published-then-archived post keeps its publish stamp. -/
theorem reachable_publishedAt_invariant (p : PostRow)
    (hp : ReachablePost p) :
    (p.status = .published → p.publishedAt.isSome = true) ∧
    (p.publishedAt.isSome = true →
      p.status = .published ∨ p.status = .archived) := by
  induction hp with
  | created t c =>
      simp [newDraftRow]
  | updated p t c q _ hok ih =>
      by_cases hd : p.status ≠ PostStatus.draft
      · rw [updatePost, if_pos hd] at hok
        cases hok
      · rw [updatePost, if_neg hd] at hok
        cases hok
        push_neg at hd
        constructor
        · intro hpub
          simp only at hpub
          rw [hpub] at hd
          cases hd
        · intro hsome
          simp only at hsome
          rcases ih.2 hsome with h | h <;> rw [h] at hd <;> cases hd
  | publishedStep now p q _ hok ih =>
      by_cases hd : p.status ≠ PostStatus.draft
      · rw [publishPost, if_pos hd] at hok
        cases hok
      · rw [publishPost, if_neg hd] at hok
        cases hok
        simp
  | archivedStep p _ ih =>
      constructor
      · intro hpub
        simp [archivePost] at hpub
      · intro _
        right
        rfl

/-- Witness for C7's amended invariant: a freshly created draft. -/
theorem reachable_publishedAt_invariant_witness :
    ((newDraftRow "a" "b").status = .published →
      (newDraftRow "a" "b").publishedAt.isSome = true) ∧
    ((newDraftRow "a" "b").publishedAt.isSome = true →
      (newDraftRow "a" "b").status = .published ∨
        (newDraftRow "a" "b").status = .archived) :=
  reachable_publishedAt_invariant (newDraftRow "a" "b")
    (ReachablePost.created "a" "b")

/-- Counterexample to C2: inject a failure into the `updateMany`
claim-update after a successful Post insert (`failPostInsert = false`,
`failClaimUpdate = true`) on an empty database with one source message.
The call throws, yet the Post row and its linking row are persisted while
the message stays unclaimed — the three effects are not applied as one
atomic unit. -/
theorem createDraftPost_not_atomic :
    (createDraftPost false true 1 [10] ⟨[], [], []⟩).1 =
        .error "updateMany failed" ∧
    (createDraftPost false true 1 [10] ⟨[], [], []⟩).2 ≠ ⟨[], [], []⟩ ∧
    (createDraftPost false true 1 [10] ⟨[], [], []⟩).2.posts = [1] ∧
    (createDraftPost false true 1 [10] ⟨[], [], []⟩).2.links = [(1, 10)] ∧
    (createDraftPost false true 1 [10] ⟨[], [], []⟩).2.claimed = [] := by
  refine ⟨rfl, ?_, rfl, rfl, rfl⟩
  decide

/-- C2 as amended: `createDraftPost` inserts the Post row and its linking
rows as one atomic operation and only then, separately, marks the source
messages claimed. A failing Post/link insert leaves the database untouched,
and no message is ever claimed unless the whole call succeeds (so a failure
never claims messages); but a claim-update failure after a successful
insert leaves the Post and its links persisted with the messages
unclaimed — the unit is not atomic end to end. -/
theorem createDraftPost_effects (fp fc : Bool) (postId : Nat)
    (messageIds : List Nat) (db : Db) :
    ((createDraftPost fp fc postId messageIds db).1 = .ok () ↔
        fp = false ∧ fc = false) ∧
    (fp = true → (createDraftPost fp fc postId messageIds db).2 = db) ∧
    ((createDraftPost fp fc postId messageIds db).1 ≠ .ok () →
      (createDraftPost fp fc postId messageIds db).2.claimed = db.claimed) ∧
    (fp = false →
      (createDraftPost fp fc postId messageIds db).2.posts =
          db.posts ++ [postId] ∧
        (createDraftPost fp fc postId messageIds db).2.links =
          db.links ++ messageIds.map fun mid => (postId, mid)) ∧
    ((createDraftPost fp fc postId messageIds db).1 = .ok () →
      (createDraftPost fp fc postId messageIds db).2.claimed =
        db.claimed ++ messageIds) := by
  cases fp <;> cases fc <;>
    simp [createDraftPost]

/-- Witness for C2's amended contract: the success path claims the
messages, the claim-update failure path does not. -/
theorem createDraftPost_effects_witness :
    (createDraftPost false false 1 [10] ⟨[], [], []⟩).2.claimed =
        [] ++ [10] ∧
    (createDraftPost false true 1 [10] ⟨[], [], []⟩).2.claimed = [] := by
  constructor
  · exact (createDraftPost_effects false false 1 [10] ⟨[], [], []⟩).2.2.2.2 rfl
  · exact (createDraftPost_effects false true 1 [10] ⟨[], [], []⟩).2.2.1
      (fun h => nomatch h)

lemma runLoop_eq (outcome : Nat → Except String Unit) :
    ∀ (ts : List MessageThread) (i : Nat) (res : JobResult)
      (claimed : List Nat),
      runLoop outcome ts i res claimed =
        ({ threadsProcessed := res.threadsProcessed + okCount outcome i ts.length
           draftsCreated := res.draftsCreated + okCount outcome i ts.length
           errors := res.errors ++ loopErrors outcome i ts.length },
         claimed ++ loopClaims outcome ts i) := by
  intro ts
  induction ts with
  | nil =>
      intro i res claimed
      simp [runLoop, okCount, loopErrors, loopClaims]
  | cons t rest ih =>
      intro i res claimed
      cases houtcome : outcome i with
      | ok u =>
          simp only [runLoop, houtcome, ih, List.length_cons, okCount,
            loopErrors, loopClaims, Prod.mk.injEq, JobResult.mk.injEq]
          refine ⟨⟨by omega, by omega, by simp⟩, by simp⟩
      | error e =>
          simp only [runLoop, houtcome, ih, List.length_cons, okCount,
            loopErrors, loopClaims, Prod.mk.injEq, JobResult.mk.injEq]
          refine ⟨⟨by omega, by omega, by simp⟩, by simp⟩

lemma okCount_le (outcome : Nat → Except String Unit) :
    ∀ (n i : Nat), okCount outcome i n ≤ n := by
  intro n
  induction n with
  | zero => intro i; simp [okCount]
  | succ n ih =>
      intro i
      cases houtcome : outcome i with
      | ok u =>
          simpa [okCount, houtcome, Nat.add_comm] using
            Nat.succ_le_succ (ih (i + 1))
      | error e =>
          simp only [okCount, houtcome]
          have := ih (i + 1)
          omega

lemma loopErrors_mem (outcome : Nat → Except String Unit) :
    ∀ (n i k : Nat) (e : String), i ≤ k → k < i + n →
      outcome k = .error e →
      ("Thread processing failed: " ++ e) ∈ loopErrors outcome i n := by
  intro n
  induction n with
  | zero =>
      intro i k e hik hk _
      omega
  | succ n ih =>
      intro i k e hik hk herr
      rcases Nat.eq_or_lt_of_le hik with heq | hlt
      · subst heq
        simp [loopErrors, herr]
      · have := ih (i + 1) k e hlt (by omega) herr
        cases houtcome : outcome i <;> simp [loopErrors, houtcome, this]

lemma loopClaims_subset (outcome : Nat → Except String Unit) :
    ∀ (ts : List MessageThread) (i : Nat),
      loopClaims outcome ts i ⊆ (ts.map (·.messageIds)).flatten := by
  intro ts
  induction ts with
  | nil => intro i; simp [loopClaims]
  | cons t rest ih =>
      intro i x hx
      simp only [loopClaims, List.mem_append] at hx
      simp only [List.map_cons, List.flatten_cons, List.mem_append]
      rcases hx with hx | hx
      · left
        cases houtcome : outcome i <;> rw [houtcome] at hx <;> simp at hx
        · exact hx
      · right
        exact ih (i + 1) hx

/-- The detector's returned threads (reversed order included) carry a
permutation of the input id list. Shared between the partition and the
cap/unclaimed arguments. -/
lemma detect_flatten_perm (g : Int) (msgs : List Msg) :
    (((detectThreadBoundaries g msgs).map (·.messageIds)).flatten).Perm
      (msgs.map (·.id)) := by
  have hrev :
      (detectThreadBoundaries g msgs).map (·.messageIds) =
        ((detectLoop (g * 60 * 60 * 1000) msgs [] none).map
          (·.messageIds)).reverse := by
    simp [detectThreadBoundaries]
  rw [hrev]
  exact (flatten_reverse_perm _).trans
    (detectLoop_join_eq (g * 60 * 60 * 1000) msgs ▸ List.Perm.refl _)

/-- C3: invoking `runGenerationJob` while the `isRunning` flag is set
returns immediately the degenerate result — zero counts and an error list
holding exactly the single entry `"Job already running"` — and touches
neither the flag nor any database state, so the in-flight first
invocation's result is unaffected. -/
theorem runGenerationJob_single_flight (env : OrchEnv) (claimed : List Nat) :
    runGenerationJob env true claimed =
      ({ threadsProcessed := 0, draftsCreated := 0
         errors := ["Job already running"] }, true, claimed) := by
  rfl

/-- C8: a non-guarded invocation (flag clear on entry) always returns with
the `Running` flag released, on every exit path — success, a sync or
detection failure caught at top level, or per-thread failures (the
function's totality is the embedding of "always returns a `JobResult`
rather than throwing"). Consequently a subsequent invocation started after
the call returns sees a clear flag and behaves exactly like a fresh
non-overlapping run. -/
theorem runGenerationJob_releases_flag (env : OrchEnv) (claimed : List Nat) :
    (runGenerationJob env false claimed).2.1 = false ∧
    ∀ (env2 : OrchEnv) (c2 : List Nat),
      runGenerationJob env2 (runGenerationJob env false claimed).2.1 c2 =
        runGenerationJob env2 false c2 := by
  have hflag : (runGenerationJob env false claimed).2.1 = false := by
    cases hs : env.syncOutcome with
    | error e => simp [runGenerationJob, hs]
    | ok serrs =>
        cases hd : env.detectOutcome with
        | error e => simp [runGenerationJob, hs, hd]
        | ok msgs => simp [runGenerationJob, hs, hd]
  exact ⟨hflag, fun env2 c2 => by rw [hflag]⟩

/-- C10: in every `JobResult` the orchestrator can return — guard hit, top
level failure, or a completed loop — `threadsProcessed` equals
`draftsCreated` (the source increments them only together, on a thread's
successful draft creation) and both are bounded by `maxThreadsPerRun`. -/
theorem runGenerationJob_counters (env : OrchEnv) (isRunning : Bool)
    (claimed : List Nat) :
    (runGenerationJob env isRunning claimed).1.threadsProcessed =
        (runGenerationJob env isRunning claimed).1.draftsCreated ∧
    (runGenerationJob env isRunning claimed).1.threadsProcessed ≤
        env.maxThreads := by
  cases isRunning with
  | true => exact ⟨rfl, Nat.zero_le _⟩
  | false =>
      cases hs : env.syncOutcome with
      | error e => simp [runGenerationJob, hs]
      | ok serrs =>
          cases hd : env.detectOutcome with
          | error e => simp [runGenerationJob, hs, hd]
          | ok msgs =>
              simp only [runGenerationJob, hs, hd, Bool.false_eq_true,
                if_false, runLoop_eq]
              constructor
              · trivial
              · have h1 := okCount_le env.threadOutcome
                  ((detectThreadBoundaries env.gapHours msgs).take
                    env.maxThreads).length 0
                have h2 :
                    ((detectThreadBoundaries env.gapHours msgs).take
                      env.maxThreads).length ≤ env.maxThreads := by
                  simp [List.length_take]
                omega

/-- C6: per-thread failure is isolated. If the processing of the `k`-th
retained thread throws with message `e`, then the returned error list is
the sync errors followed by exactly one formatted
`"Thread processing failed: " + reason` entry per failing retained thread
(so `k`'s entry is present), and the counters equal the number of
*successful* retained threads — the failing thread is not counted, every
other retained thread is still attempted, and the run is not aborted. -/
theorem runGenerationJob_thread_isolation (env : OrchEnv)
    (claimed : List Nat) (serrs : List String) (msgs : List Msg) (k : Nat)
    (e : String)
    (hs : env.syncOutcome = .ok serrs)
    (hd : env.detectOutcome = .ok msgs)
    (herr : env.threadOutcome k = .error e)
    (hk : k < min env.maxThreads
      (detectThreadBoundaries env.gapHours msgs).length) :
    ("Thread processing failed: " ++ e) ∈
        (runGenerationJob env false claimed).1.errors ∧
    (runGenerationJob env false claimed).1.errors =
      serrs ++ loopErrors env.threadOutcome 0
        ((detectThreadBoundaries env.gapHours msgs).take
          env.maxThreads).length ∧
    (runGenerationJob env false claimed).1.threadsProcessed =
      okCount env.threadOutcome 0
        ((detectThreadBoundaries env.gapHours msgs).take
          env.maxThreads).length ∧
    (runGenerationJob env false claimed).1.draftsCreated =
      (runGenerationJob env false claimed).1.threadsProcessed := by
  have hlen :
      ((detectThreadBoundaries env.gapHours msgs).take
        env.maxThreads).length =
      min env.maxThreads
        (detectThreadBoundaries env.gapHours msgs).length := by
    simp [List.length_take]
  have hmem :=
    loopErrors_mem env.threadOutcome
      ((detectThreadBoundaries env.gapHours msgs).take env.maxThreads).length
      0 k e (Nat.zero_le k) (by omega) herr
  have hrun :
      runGenerationJob env false claimed =
        ({ threadsProcessed := okCount env.threadOutcome 0
             ((detectThreadBoundaries env.gapHours msgs).take
               env.maxThreads).length
           draftsCreated := okCount env.threadOutcome 0
             ((detectThreadBoundaries env.gapHours msgs).take
               env.maxThreads).length
           errors := serrs ++ loopErrors env.threadOutcome 0
             ((detectThreadBoundaries env.gapHours msgs).take
               env.maxThreads).length },
         false,
         claimed ++ loopClaims env.threadOutcome
           ((detectThreadBoundaries env.gapHours msgs).take env.maxThreads)
           0) := by
    simp [runGenerationJob, hs, hd, runLoop_eq]
  rw [hrun]
  exact ⟨List.mem_append.mpr (Or.inr hmem), rfl, rfl, rfl⟩

/-- C9: the run processes at most `maxThreadsPerRun` threads — only the
first `maxThreads` threads of the detector's returned order are attempted
(`draftsCreated` counts successes among exactly those, so it is bounded by
the cap), and every message id belonging to a thread beyond the cap that
was unclaimed before the run is still unclaimed after it. The id-nodup
hypothesis reflects `Message.id` being the table's primary key. -/
theorem runGenerationJob_cap (env : OrchEnv) (claimed : List Nat)
    (serrs : List String) (msgs : List Msg)
    (hs : env.syncOutcome = .ok serrs)
    (hd : env.detectOutcome = .ok msgs)
    (hnodup : (msgs.map (·.id)).Nodup) :
    (runGenerationJob env false claimed).1.draftsCreated ≤ env.maxThreads ∧
    (runGenerationJob env false claimed).1.draftsCreated =
      okCount env.threadOutcome 0
        ((detectThreadBoundaries env.gapHours msgs).take
          env.maxThreads).length ∧
    ∀ t ∈ (detectThreadBoundaries env.gapHours msgs).drop env.maxThreads,
      ∀ mid ∈ t.messageIds, mid ∉ claimed →
        mid ∉ (runGenerationJob env false claimed).2.2 := by
  have hrun :
      runGenerationJob env false claimed =
        ({ threadsProcessed := okCount env.threadOutcome 0
             ((detectThreadBoundaries env.gapHours msgs).take
               env.maxThreads).length
           draftsCreated := okCount env.threadOutcome 0
             ((detectThreadBoundaries env.gapHours msgs).take
               env.maxThreads).length
           errors := serrs ++ loopErrors env.threadOutcome 0
             ((detectThreadBoundaries env.gapHours msgs).take
               env.maxThreads).length },
         false,
         claimed ++ loopClaims env.threadOutcome
           ((detectThreadBoundaries env.gapHours msgs).take env.maxThreads)
           0) := by
    simp [runGenerationJob, hs, hd, runLoop_eq]
  have hfnodup :
      (((detectThreadBoundaries env.gapHours msgs).map
        (·.messageIds)).flatten).Nodup :=
    ((detect_flatten_perm env.gapHours msgs).nodup_iff).mpr hnodup
  have hsplit :
      (detectThreadBoundaries env.gapHours msgs).map (·.messageIds) =
        ((detectThreadBoundaries env.gapHours msgs).take
          env.maxThreads).map (·.messageIds) ++
        ((detectThreadBoundaries env.gapHours msgs).drop
          env.maxThreads).map (·.messageIds) := by
    rw [← List.map_append, List.take_append_drop]
  rw [hsplit, List.flatten_append] at hfnodup
  have hdisj := List.disjoint_of_nodup_append hfnodup
  rw [hrun]
  refine ⟨?_, rfl, ?_⟩
  · show okCount env.threadOutcome 0
        ((detectThreadBoundaries env.gapHours msgs).take
          env.maxThreads).length ≤ env.maxThreads
    have h1 := okCount_le env.threadOutcome
      ((detectThreadBoundaries env.gapHours msgs).take env.maxThreads).length
      0
    have h2 :
        ((detectThreadBoundaries env.gapHours msgs).take
          env.maxThreads).length ≤ env.maxThreads := by
      simp [List.length_take]
    omega
  · intro t ht mid hmid hold hmem
    rcases List.mem_append.mp hmem with hc | hc
    · exact hold hc
    · have hin :
          mid ∈ (((detectThreadBoundaries env.gapHours msgs).take
            env.maxThreads).map (·.messageIds)).flatten :=
        loopClaims_subset env.threadOutcome _ 0 hc
      have hdrop :
          mid ∈ (((detectThreadBoundaries env.gapHours msgs).drop
            env.maxThreads).map (·.messageIds)).flatten := by
        exact List.mem_flatten.mpr
          ⟨t.messageIds, List.mem_map_of_mem _ ht, hmid⟩
      exact hdisj hin hdrop

/-- Witness for C9, the spec's own scenario: `maxThreadsPerRun = 1` with two
eligible threads detected — exactly one draft is created and the other
thread's message (id 1) remains unclaimed. -/
theorem runGenerationJob_cap_witness :
    (runGenerationJob envTwoThreadsCapOne false []).1.draftsCreated = 1 ∧
    (1 : Nat) ∉ (runGenerationJob envTwoThreadsCapOne false []).2.2 := by
  have h := runGenerationJob_cap envTwoThreadsCapOne [] []
    [⟨1, "A", "alice", 0⟩, ⟨2, "A", "alice", 7200000⟩] rfl rfl (by decide)
  refine ⟨?_, ?_⟩
  · rw [h.2.1]
    decide
  · exact h.2.2 ⟨"A", [1], 0, 0, 1, ["alice"]⟩ (by decide) 1 (by decide)
      (by decide)

/-- Witness for C6 at a concrete failing thread: the formatted error is
reported and no counter is incremented. -/
theorem runGenerationJob_thread_isolation_witness :
    ("Thread processing failed: boom") ∈
        (runGenerationJob envOneThreadFails false []).1.errors ∧
    (runGenerationJob envOneThreadFails false []).1.threadsProcessed = 0 := by
  have h := runGenerationJob_thread_isolation envOneThreadFails []
    [] [⟨1, "A", "alice", 0⟩] 0 "boom" rfl rfl rfl (by decide)
  refine ⟨h.1, ?_⟩
  rw [h.2.2.1]
  decide

/-- Witness for C1 at a concrete two-message input (same conversation, 1 ms
apart): the single returned thread carries exactly the input ids in input
order. -/
theorem detectThreadBoundaries_partition_witness :
    (((detectThreadBoundaries 2
        [⟨1, "A", "alice", 0⟩, ⟨2, "A", "alice", 1⟩]).map
          (·.messageIds)).flatten).Perm [1, 2] ∧
    (⟨"A", [1, 2], 0, 1, 2, ["alice"]⟩ : MessageThread).messageIds.Sublist
      [1, 2] := by
  have h := detectThreadBoundaries_partition 2
    [⟨1, "A", "alice", 0⟩, ⟨2, "A", "alice", 1⟩]
  exact ⟨h.1, h.2 ⟨"A", [1, 2], 0, 1, 2, ["alice"]⟩ (by decide)⟩
